import Mathlib

/-!
Verification of the pahkat prefix package store and repository init tool.

The definitions below are a shallow embedding of
`pahkat-client-core/src/package_store/prefix.rs` and
`pahkat-server-core/src/repo/init.rs`.  File-system paths are modelled as
lists of path components, the SQLite database as lists of rows, and the
side-effecting operations as pure state-passing functions.  Code that the
repository uses but whose sources are elsewhere (the release resolver,
`crate::cmp`, `Config`, the `pahkat_types` builders) is modelled from the
specification; each such definition says so in its doc comment.  Behaviour
of third-party crates (`tar`, `rusqlite`/SQLite) is modelled from their
documented semantics where the embedded code calls into them.
-/

namespace Pahkat

/-- A path component, as produced by Rust's `std::path::Path::components`. -/
inductive Component where
  | rootDir
  | curDir
  | parentDir
  | normal (s : String)
  deriving DecidableEq

/-- An absolute, normalized file-system path: the list of directory names
from the root.  (`[]` is the root itself.) -/
abbrev AbsPath := List String

/-- Payload variants of `pahkat_types::payload::Payload` (tagged sum per the
data model; the fields the embedded code reads are the url/size/hash). -/
inductive Payload where
  | tarballPackage (url : String) (size : Nat) (sha256 : String)
  | windowsExecutable (url : String) (size : Nat) (sha256 : String)
  | macOSPackage (url : String) (size : Nat) (sha256 : String)
  deriving DecidableEq

/-- The tag of a payload variant, used by the release query payload filter. -/
def Payload.tag : Payload → String
  | .tarballPackage .. => "TarballPackage"
  | .windowsExecutable .. => "WindowsExecutable"
  | .macOSPackage .. => "MacOSPackage"

/-- A target of a release: platform, optional architecture, the keys of its
dependency map (in order), and its payload. -/
structure Target where
  platform : String
  arch : Option String
  dependencies : List String
  payload : Payload
  deriving DecidableEq

/-- A release: version string, optional channel tag (none = stable), and its
ordered list of targets. -/
structure Release where
  version : String
  channel : Option String
  targets : List Target
  deriving DecidableEq

/-- A package descriptor: identifier and ordered list of releases. -/
structure Descriptor where
  id : String
  releases : List Release
  deriving DecidableEq

/-- A loaded repository index: the package descriptors it serves. -/
structure LoadedRepository where
  packages : List Descriptor
  deriving DecidableEq

/-- A package key: repository URL, package identifier and the optional
channel filter of its query.  (The platform/architecture/payload query
parameters of the full key are not exercised by the embedded operations and
are elided; the payload filter is carried by `ReleaseQuery`.) -/
structure PackageKey where
  repoUrl : String
  id : String
  channel : Option String
  deriving DecidableEq

/-- Modelled from the spec: the canonical string form of a package key,
`<repo-url>#<package-id>?channel=...` with the query part omitted when
unset.  It is used verbatim as the database `url` column. -/
def PackageKey.canonicalString (k : PackageKey) : String :=
  k.repoUrl ++ "#" ++ k.id ++
    match k.channel with
    | none => ""
    | some c => "?channel=" ++ c

/-- Modelled from the spec: the host platform constant used as the default
release-query platform. -/
def hostPlatform : String := "linux"

/-- Modelled from the spec: the host architecture constant used as the
default release-query architecture. -/
def hostArch : String := "x86_64"

/-- Modelled from the spec: a release query — platform, architecture,
channel and allowed payload kinds (`[]` = all kinds allowed). -/
structure ReleaseQuery where
  platform : String
  arch : Option String
  channel : Option String
  payloads : List String
  deriving DecidableEq

/-- Modelled from the spec: `ReleaseQuery::from(key)` — defaults to the host
platform and architecture, the key's channel, and no payload filter. -/
def queryFrom (k : PackageKey) : ReleaseQuery :=
  { platform := hostPlatform, arch := some hostArch, channel := k.channel, payloads := [] }

/-- Modelled from the spec: `ReleaseQuery::from(key).and_payloads(vec!["TarballPackage"])`
as built by `install` and `status` — the query with its allowed payload-kind
set set to exactly `TarballPackage`. -/
def tarballQuery (k : PackageKey) : ReleaseQuery :=
  { queryFrom k with payloads := ["TarballPackage"] }

/-- Modelled from the spec: release channel filtering — a set query channel
keeps releases with that channel, an unset one keeps only stable releases. -/
def releaseChannelOk (q : ReleaseQuery) (r : Release) : Bool :=
  match q.channel with
  | some c => r.channel == some c
  | none => r.channel == none

/-- Modelled from the spec: the payload-kind filter — an empty set allows
every payload, otherwise the payload's tag must be in the set. -/
def payloadAllowed (q : ReleaseQuery) (p : Payload) : Bool :=
  q.payloads.isEmpty || q.payloads.contains p.tag

/-- Modelled from the spec: target acceptance — platform matches the query
platform, architecture matches (a target without an architecture matches
anything), and the payload kind is allowed. -/
def targetOk (q : ReleaseQuery) (t : Target) : Bool :=
  t.platform == q.platform && (t.arch == none || t.arch == q.arch) && payloadAllowed q t.payload

/-- Modelled from the spec: semver ordering of version strings.
`crate::cmp` is not among the sources; versions are modelled as totally
ordered by string comparison. -/
def versionLt (a b : String) : Bool := a < b

/-- Insert a release into a version-descending list. -/
def insertByVersion (r : Release) : List Release → List Release
  | [] => [r]
  | x :: xs => if versionLt x.version r.version then r :: x :: xs else x :: insertByVersion r xs

/-- Sort releases by version, descending. -/
def sortReleases (rs : List Release) : List Release :=
  rs.foldr insertByVersion []

/-- Resolution error kinds, per the spec's error taxonomy. -/
inductive PayloadError where
  | noRepository
  | noPackage
  | noMatchingPayload
  deriving DecidableEq

/-- Modelled from the spec: `crate::repo::resolve_payload` — look up the
repository by the key's URL, the descriptor by the package identifier,
filter releases by channel, sort them by version descending, and take the
first target accepted by the query. -/
def resolvePayload (k : PackageKey) (q : ReleaseQuery)
    (repos : List (String × LoadedRepository)) :
    Except PayloadError (Target × Release × Descriptor) :=
  match repos.find? (fun e => e.1 == k.repoUrl) with
  | none => .error .noRepository
  | some e =>
    match e.2.packages.find? (fun d => d.id == k.id) with
    | none => .error .noPackage
    | some d =>
      match (sortReleases (d.releases.filter (releaseChannelOk q))).findSome?
          (fun r => (r.targets.find? (targetOk q)).map (fun t => (t, r))) with
      | none => .error .noMatchingPayload
      | some (t, r) => .ok (t, r, d)

/-- A row of the `packages` table: `packages(id INTEGER PK, url TEXT UNIQUE, version TEXT)`. -/
structure PackagesRow where
  id : Int
  url : String
  version : String
  deriving DecidableEq

/-- A row of the `packages_files` table. -/
structure FilesRow where
  package_id : Int
  file_path : String
  deriving DecidableEq

/-- A row of the `packages_dependencies` table.  The `dependency_id` column
is TEXT and nullable (the schema of `prefix_init.sql`, modelled from the
spec); `replace_pkg` fills it from the scalar subquery
`SELECT id FROM packages WHERE url = :dep_url`, so it holds the text form of
the found row id, or NULL (`none`) when no packages row has that url. -/
structure DepsRow where
  package_id : Int
  dependency_id : Option String
  deriving DecidableEq

/-- The embedded SQLite database of the prefix store. -/
structure PackagesDb where
  packages : List PackagesRow
  packages_files : List FilesRow
  packages_dependencies : List DepsRow
  deriving DecidableEq

/-- An in-memory `PackageDbRecord` (prefix.rs). -/
structure PackageDbRecord where
  id : Int
  url : String
  version : String
  files : List String
  dependencies : List String
  deriving DecidableEq

/-- SQLite `REPLACE INTO packages(id, url, version)`: delete every row that
conflicts with the new row on either uniqueness constraint (the `id` primary
key or the unique `url` column), then append the new row. -/
def replaceInto (ps : List PackagesRow) (r : PackagesRow) : List PackagesRow :=
  ps.filter (fun q => q.id != r.id && q.url != r.url) ++ [r]

/-- `PackageDbConnection::replace_pkg`: in one transaction, REPLACE the
packages row, delete the child rows keyed by the record's id, then reinsert
the dependency rows (each `dependency_id` via the url-keyed subselect
against the post-REPLACE packages table) and the file rows. -/
def replace_pkg (db : PackagesDb) (pkg : PackageDbRecord) : PackagesDb :=
  let ps := replaceInto db.packages ⟨pkg.id, pkg.url, pkg.version⟩
  let deps0 := db.packages_dependencies.filter (fun r => r.package_id != pkg.id)
  let files0 := db.packages_files.filter (fun r => r.package_id != pkg.id)
  { packages := ps
    packages_dependencies := deps0 ++ pkg.dependencies.map (fun dep =>
      ⟨pkg.id, (ps.find? (fun p => p.url == dep)).map (fun p => toString p.id)⟩)
    packages_files := files0 ++ pkg.files.map (fun f => ⟨pkg.id, f⟩) }

/-- `PackageDbConnection::remove_pkg`: in one transaction, delete the
packages row with the record's id and both kinds of child rows keyed by it. -/
def remove_pkg (db : PackagesDb) (pid : Int) : PackagesDb :=
  { packages := db.packages.filter (fun r => r.id != pid)
    packages_files := db.packages_files.filter (fun r => r.package_id != pid)
    packages_dependencies := db.packages_dependencies.filter (fun r => r.package_id != pid) }

/-- `PackageDbConnection::version`: the version of the first packages row
with the given url (`SELECT version FROM packages WHERE url = ? LIMIT 1`). -/
def dbVersion (db : PackagesDb) (url : String) : Option String :=
  (db.packages.find? (fun r => r.url == url)).map (fun r => r.version)

/-- `PackageDbConnection::files`: the file paths whose `package_id` equals
the id of the first packages row with the given url; no such row means the
subselect is NULL and no file row matches. -/
def dbFiles (db : PackagesDb) (url : String) : List String :=
  match db.packages.find? (fun r => r.url == url) with
  | none => []
  | some row => (db.packages_files.filter (fun r => r.package_id == row.id)).map
      (fun r => r.file_path)

/-- Collect a list of optional values, failing on the first `none`.  This is
`query_map(...).map(|x| x.unwrap()).collect()` reading a nullable column
into `String`: rusqlite's `Row::get` returns an invalid-column-type error on
NULL, and the `unwrap` panics (`none`). -/
def allSome : List (Option String) → Option (List String)
  | [] => some []
  | none :: _ => none
  | some a :: rest => (allSome rest).map (fun l => a :: l)

/-- `PackageDbConnection::dependencies` for the row found by url: reads each
`dependency_id` as a `String`; a NULL value makes the row mapper panic
(`none`). -/
def dbDeps (db : PackagesDb) (url : String) : Option (List String) :=
  match db.packages.find? (fun r => r.url == url) with
  | none => some []
  | some row => allSome ((db.packages_dependencies.filter
      (fun r => r.package_id == row.id)).map (fun r => r.dependency_id))

/-- Result of `PackageDbRecord::find_by_id`: found (with the record), not
found, or a panic while reading the rows. -/
inductive DbLookup where
  | panicked
  | notFound
  | found (r : PackageDbRecord)
  deriving DecidableEq

/-- `PackageDbRecord::find_by_id`: look the version up by the key's
canonical string; absent means no record.  Otherwise collect the file and
dependency child rows — reading a NULL `dependency_id` panics — and return
a record whose `id` field is the literal `0`. -/
def find_by_id (db : PackagesDb) (k : PackageKey) : DbLookup :=
  let url := k.canonicalString
  match dbVersion db url with
  | none => .notFound
  | some v =>
    match dbDeps db url with
    | none => .panicked
    | some ds => .found ⟨0, url, v, dbFiles db url, ds⟩

/-- File-system state of the model: the set of regular files and the set of
directories, each as absolute normalized paths.  There are no symlinks in
the model. -/
structure FsState where
  files : List AbsPath
  dirs : List AbsPath
  deriving DecidableEq

/-- Insert a path into a path set. -/
def insertPath (l : List AbsPath) (p : AbsPath) : List AbsPath :=
  if p ∈ l then l else p :: l

/-- `std::fs::create_dir_all`: the directory (with its parent chain elided —
no operation of the model reads intermediate ancestors) now exists. -/
def createDirAll (fs : FsState) (d : AbsPath) : FsState :=
  { fs with dirs := insertPath fs.dirs d }

/-- Writing a regular file: the file and its parent directory now exist. -/
def addFile (fs : FsState) (p : AbsPath) : FsState :=
  { files := insertPath fs.files p, dirs := insertPath fs.dirs p.dropLast }

/-- Whether a path exists (as a file or as a directory). -/
def FsState.existsPath (fs : FsState) (p : AbsPath) : Prop :=
  p ∈ fs.files ∨ p ∈ fs.dirs

instance (fs : FsState) (p : AbsPath) : Decidable (fs.existsPath p) := by
  unfold FsState.existsPath
  exact inferInstance

/-- An entry of a tar archive: the path stored in its header. -/
structure TarEntry where
  path : List Component
  deriving DecidableEq

/-- The destination computation of the `tar` crate's `Entry::unpack_in(dir)`
(documented semantics): prefix, root and `.` components are ignored, any
`..` component makes the entry skipped (`none`), and normal components are
pushed onto the destination. -/
def unpackDest (acc : AbsPath) : List Component → Option AbsPath
  | [] => some acc
  | .parentDir :: _ => none
  | .rootDir :: cs => unpackDest acc cs
  | .curDir :: cs => unpackDest acc cs
  | .normal s :: cs => unpackDest (acc ++ [s]) cs

/-- Match the leading components of a path against a list of directory
names, returning the remainder. -/
def dropNames : List Component → List String → Option (List Component)
  | cs, [] => some cs
  | .normal s :: cs, n :: ns => if s = n then dropNames cs ns else none
  | _, _ => none

/-- `Path::strip_prefix` against the absolute store prefix: the entry path
must start with a root component followed by the prefix's directory names;
otherwise the call fails (`none`) and the caller's `unwrap` panics. -/
def stripRoot (pfx : AbsPath) (p : List Component) : Option (List Component) :=
  match p with
  | .rootDir :: rest => dropNames rest pfx
  | _ => none

/-- Render one path component as its textual form. -/
def compStr : Component → String
  | .normal s => s
  | .parentDir => ".."
  | .curDir => "."
  | .rootDir => "/"

/-- Render relative path components back to a string, as
`Path::to_str` does for the recorded file list. -/
def render : List Component → String
  | [] => ""
  | [c] => compStr c
  | c :: cs => compStr c ++ "/" ++ render cs

/-- The entry loop of `PrefixPackageStore::install`: for each entry,
`unpack_in` the package directory (skipped entries are not recorded); for an
unpacked entry, write the destination file (unless the destination collapsed
to the directory itself, which `unpack_in` reports as unpacked without
writing) and record the header path stripped of the store prefix — a strip
failure is an `unwrap` panic, reported as `none` in the second component
while the file-system effects so far are kept. -/
def processEntries (pfx pkgdir : AbsPath) :
    List TarEntry → FsState → FsState × Option (List String)
  | [], fs => (fs, some [])
  | e :: es, fs =>
    match unpackDest pkgdir e.path with
    | none => processEntries pfx pkgdir es fs
    | some dst =>
      let fs2 := if dst = pkgdir then fs else addFile fs dst
      match stripRoot pfx e.path with
      | none => (fs2, none)
      | some rel =>
        match processEntries pfx pkgdir es fs2 with
        | (fs3, none) => (fs3, none)
        | (fs3, some names) => (fs3, some (render rel :: names))

/-- Split a character list into the segments between `/` characters. -/
def splitSlashAux (cur : List Char) : List Char → List String
  | [] => [String.mk cur.reverse]
  | c :: cs =>
    if c = '/' then String.mk cur.reverse :: splitSlashAux [] cs
    else splitSlashAux (c :: cur) cs

/-- Split a string into path components at `/`, as `Path::components` does
for the strings recorded in the database (empty and `.` segments are
dropped by normalization below; `..` is a parent component). -/
def parseParts (s : String) : List Component :=
  (splitSlashAux [] s.data).filterMap (fun part =>
    if part = "" then none
    else if part = "." then some .curDir
    else if part = ".." then some .parentDir
    else some (.normal part))

/-- Resolve components against an absolute base: `.` is dropped, `..` pops,
a root component restarts from the file-system root. -/
def normalizeParts (acc : AbsPath) : List Component → AbsPath
  | [] => acc
  | .rootDir :: cs => normalizeParts [] cs
  | .curDir :: cs => normalizeParts acc cs
  | .parentDir :: cs => normalizeParts acc.dropLast cs
  | .normal s :: cs => normalizeParts (acc ++ [s]) cs

/-- `pkg_path.join(file)` followed by path normalization: an absolute
recorded string replaces the base, a relative one resolves under it. -/
def pathResolve (base : AbsPath) (f : String) : AbsPath :=
  if f.data.head? = some '/' then normalizeParts [] (parseParts f)
  else normalizeParts base (parseParts f)

/-- `pkg_path.join(file).canonicalize()`: the resolved path when it exists,
an error (`none`) otherwise. -/
def canonicalizeUnder (fs : FsState) (base : AbsPath) (f : String) : Option AbsPath :=
  let p := pathResolve base f
  if fs.existsPath p then some p else none

/-- The first pass of `PrefixPackageStore::uninstall` over the recorded file
paths, in their stored order: a path that fails to canonicalize is skipped,
a directory is skipped, an existing regular file is removed.  The second
component is the trace of removed paths, in removal order. -/
def removePass (pkgdir : AbsPath) : List String → FsState → FsState × List AbsPath
  | [], fs => (fs, [])
  | f :: rest, fs =>
    match canonicalizeUnder fs pkgdir f with
    | none => removePass pkgdir rest fs
    | some p =>
      if p ∈ fs.dirs then removePass pkgdir rest fs
      else
        let next := removePass pkgdir rest { fs with files := fs.files.erase p }
        (next.1, p :: next.2)

/-- The number of entries directly inside a directory, as
`read_dir(..).count()` sees it. -/
def childCount (fs : FsState) (p : AbsPath) : Nat :=
  (fs.files.filter (fun q => q.length = p.length + 1 && p.isPrefixOf q)).length +
    (fs.dirs.filter (fun q => q.length = p.length + 1 && p.isPrefixOf q)).length

/-- The second pass of `PrefixPackageStore::uninstall`: recorded paths that
canonicalize to an empty directory are removed. -/
def dirPass (pkgdir : AbsPath) : List String → FsState → FsState
  | [], fs => fs
  | f :: rest, fs =>
    match canonicalizeUnder fs pkgdir f with
    | none => dirPass pkgdir rest fs
    | some p =>
      if p ∈ fs.dirs then
        if childCount fs p = 0 then dirPass pkgdir rest { fs with dirs := fs.dirs.erase p }
        else dirPass pkgdir rest fs
      else dirPass pkgdir rest fs

/-- The mutable state of a prefix store: its file system and its database. -/
structure State where
  fs : FsState
  db : PackagesDb
  deriving DecidableEq

/-- The immutable environment of the store's operations: the loaded
repository map, the set of payload urls present in the download cache
(`crate::repo::download_file_path` existence, modelled by url), and the
decoded contents of each cached tarball by url. -/
structure Env where
  repos : List (String × LoadedRepository)
  cache : List String
  archives : String → List TarEntry

/-- The result of a store operation: a clean error, a success value, or a
Rust panic (`unwrap` failure). -/
inductive Outcome (ε α : Type) where
  | panicked
  | err (e : ε)
  | ok (a : α)
  deriving DecidableEq

/-- Package status values of `crate::transaction::PackageStatus`. -/
inductive PackageStatus where
  | notInstalled
  | upToDate
  | requiresUpdate
  | versionSkipped
  deriving DecidableEq

/-- Install error kinds (`crate::transaction::install::InstallError`,
modelled from the spec's error taxonomy; `prefix.rs` constructs `Payload`,
`WrongPayloadType` and `PackageNotInCache`, and the spec additionally names
an unsafe-archive-path kind, included here as `unsafePath`). -/
inductive InstallError where
  | payload (e : PayloadError)
  | wrongPayloadType
  | packageNotInCache
  | unsafePath
  deriving DecidableEq

/-- Uninstall error kinds (`crate::transaction::uninstall::UninstallError`). -/
inductive UninstallError where
  | notInstalled
  deriving DecidableEq

/-- Status error kinds (`crate::transaction::PackageStatusError`). -/
inductive PackageStatusError where
  | payload (e : PayloadError)
  | wrongPayloadType
  deriving DecidableEq

/-- Modelled from the spec: `crate::cmp::cmp` — equal versions are up to
date, an older installed version requires an update, a newer one is
skipped.  (Version order is the string order of `versionLt`.) -/
def cmpVersions (installed resolved : String) : Except PackageStatusError PackageStatus :=
  if installed = resolved then .ok .upToDate
  else if versionLt installed resolved then .ok .requiresUpdate
  else .ok .versionSkipped

/-- The package directory `<prefix>/pkg/<package-id>`
(`PrefixPackageStore::package_dir`). -/
def package_dir (pfx : AbsPath) (packageId : String) : AbsPath :=
  pfx ++ ["pkg", packageId]

/-- `PrefixPackageStore::install`: resolve the payload with the
tarball-filtered query, require a tarball payload and a cached payload file,
unpack the entries under `<prefix>/pkg/<descriptor-id>` and save a
`PackageDbRecord` with id 0, the key's canonical string, the release
version, the recorded relative paths and the target's dependency keys.
Returns `UpToDate` on success. -/
def install (env : Env) (pfx : AbsPath) (k : PackageKey) (s : State) :
    Outcome InstallError PackageStatus × State :=
  match resolvePayload k (tarballQuery k) env.repos with
  | .error e => (.err (.payload e), s)
  | .ok (t, rel, d) =>
    match t.payload with
    | .tarballPackage url _ _ =>
      if url ∈ env.cache then
        let pkgdir := package_dir pfx d.id
        let fs1 := createDirAll s.fs pkgdir
        match processEntries pfx pkgdir (env.archives url) fs1 with
        | (fs2, none) => (.panicked, ⟨fs2, s.db⟩)
        | (fs2, some files) =>
          let record : PackageDbRecord :=
            ⟨0, k.canonicalString, rel.version, files, t.dependencies⟩
          (.ok .upToDate, ⟨fs2, replace_pkg s.db record⟩)
      else (.err .packageNotInCache, s)
    | _ => (.err .wrongPayloadType, s)

/-- `PrefixPackageStore::uninstall`: look the record up by key; no record is
a `NotInstalled` error.  Otherwise remove the recorded regular files in
stored order, then remove recorded directories that became empty, delete the
database record by its id, and return `NotInstalled`.  The third component
is the trace of file removals in the order they happened. -/
def uninstall (pfx : AbsPath) (k : PackageKey) (s : State) :
    Outcome UninstallError PackageStatus × State × List AbsPath :=
  match find_by_id s.db k with
  | .panicked => (.panicked, s, [])
  | .notFound => (.err .notInstalled, s, [])
  | .found r =>
    let pkgdir := package_dir pfx k.id
    let pass1 := removePass pkgdir r.files s.fs
    let fs2 := dirPass pkgdir r.files pass1.1
    (.ok .notInstalled, ⟨⟨fs2, remove_pkg s.db r.id⟩, pass1.2⟩)

/-- `PrefixPackageStore::status`: no record means `NotInstalled`; otherwise
resolve with the tarball-filtered query (propagating resolver errors as
`Payload`), require a tarball payload and compare the recorded version with
the resolved release's version. -/
def status (env : Env) (k : PackageKey) (s : State) :
    Outcome PackageStatusError PackageStatus :=
  match find_by_id s.db k with
  | .panicked => .panicked
  | .notFound => .ok .notInstalled
  | .found r =>
    match resolvePayload k (tarballQuery k) env.repos with
    | .error e => .err (.payload e)
    | .ok (t, rel, _) =>
      match t.payload with
      | .tarballPackage .. =>
        match cmpVersions r.version rel.version with
        | .ok st => .ok st
        | .error e => .err e
      | _ => .err .wrongPayloadType

/-- Modelled from the spec: `Config::load` (not among the sources) roots the
configuration at the given prefix directory; `config_dir` is that
directory. -/
structure Config where
  configDir : AbsPath
  deriving DecidableEq

/-- Modelled from the spec: loading the configuration of a prefix. -/
def Config.load (p : AbsPath) : Config := ⟨p⟩

/-- `PrefixPackageStore::package_db_path`: the configuration directory
joined with `packages.sqlite`. -/
def package_db_path (c : Config) : AbsPath := c.configDir ++ ["packages.sqlite"]

/-- A prefix store as far as its on-disk locations go: the prefix path and
the database file path. -/
structure PrefixPackageStore where
  pfxDir : AbsPath
  dbFile : AbsPath
  deriving DecidableEq

/-- `PrefixPackageStore::create` on an already-canonical prefix path: load
the configuration from the prefix and place the database at
`package_db_path`. -/
def PrefixPackageStore.create (p : AbsPath) : PrefixPackageStore :=
  ⟨p, package_db_path (Config.load p)⟩

/-- `PrefixPackageStore::open` on an already-canonical prefix path: same
locations as `create`. -/
def PrefixPackageStore.openStore (p : AbsPath) : PrefixPackageStore :=
  ⟨p, package_db_path (Config.load p)⟩

/-- Modelled from the spec: `pahkat_types::repo::Agent` — name, version and
an optional project URL. -/
structure Agent where
  name : String
  version : String
  url : Option String
  deriving DecidableEq

/-- Modelled from the spec: the crate version string the build environment
bakes into `create_agent` via `env!("CARGO_PKG_VERSION")`; its concrete
value is not among the sources, so it is an unspecified constant here. -/
def cargoPkgVersion : String := "CARGO_PKG_VERSION"

/-- `create_agent` (`pahkat-server-core/src/repo/init.rs`): name `pahkat`,
the crate version, and the pahkat project URL. -/
def create_agent : Agent :=
  ⟨"pahkat", cargoPkgVersion, some "https://github.com/divvun/pahkat/"⟩

/-- Modelled from the spec: the repository descriptor written to
`index.toml` — base URL, agent descriptor, channel list and default
channel.  `Index::builder().base_url(..).agent(..).build()` leaves the
channel list empty and the default channel unset. -/
structure RepoIndexFile where
  base_url : String
  agent : Agent
  channels : List String
  default_channel : Option String
  deriving DecidableEq

/-- The decoded content of a written TOML file: either a repository
descriptor or a package-identifier list (`pahkat_types::package::Index`,
whose builder produces an empty list).  TOML serialization is modelled as
the identity on these decoded values. -/
inductive TomlFile where
  | repoIndex (i : RepoIndexFile)
  | packagesIndex (ids : List String)
  deriving DecidableEq

/-- The file system the init tool works on: directories and TOML files by
path. -/
structure ServerFs where
  dirs : List AbsPath
  files : List (AbsPath × TomlFile)
  deriving DecidableEq

/-- `std::fs::write` through `write_index`: serialize and (over)write the
file at the path. -/
def writeIndexFile (fs : ServerFs) (p : AbsPath) (v : TomlFile) : ServerFs :=
  { fs with files := fs.files.filter (fun e => e.1 != p) ++ [(p, v)] }

/-- Look up the decoded content of a written file. -/
def lookupFile (fs : ServerFs) (p : AbsPath) : Option TomlFile :=
  (fs.files.find? (fun e => e.1 == p)).map (fun e => e.2)

/-- The init request: target path and base URL. -/
structure InitRequest where
  path : AbsPath
  base_url : String
  deriving DecidableEq

/-- `init` (`pahkat-server-core/src/repo/init.rs`): create the repository
directory and its `packages` subdirectory, write the repository descriptor
(with the request's base URL and `create_agent`) to `index.toml`, and write
the empty package-identifier index to `packages/index.toml`. -/
def init (req : InitRequest) (fs : ServerFs) : ServerFs :=
  let fs1 := { fs with dirs := insertPath (insertPath fs.dirs req.path) (req.path ++ ["packages"]) }
  let index : RepoIndexFile := ⟨req.base_url, create_agent, [], none⟩
  let fs2 := writeIndexFile fs1 (req.path ++ ["index.toml"]) (.repoIndex index)
  writeIndexFile fs2 (req.path ++ ["packages", "index.toml"]) (.packagesIndex [])

/-- Fixture: a dependency-free tarball target for package `hello`. -/
def helloTarget : Target := ⟨hostPlatform, none, [], .tarballPackage "turl" 1 "sha"⟩

/-- Fixture: the stable 1.0.0 release of `hello`. -/
def helloRelease : Release := ⟨"1.0.0", none, [helloTarget]⟩

/-- Fixture: the descriptor of `hello`. -/
def helloDesc : Descriptor := ⟨"hello", [helloRelease]⟩

/-- Fixture: a repository serving `hello`. -/
def helloRepo : LoadedRepository := ⟨[helloDesc]⟩

/-- Fixture: the key of `hello` in repository `r`. -/
def kHello : PackageKey := ⟨"r", "hello", none⟩

/-- Fixture: the empty store state. -/
def s0 : State := ⟨⟨[], []⟩, ⟨[], [], []⟩⟩

/-- Fixture: `hello` resolvable but its payload file absent from the cache. -/
def envNoCache : Env := ⟨[("r", helloRepo)], [], fun _ => []⟩

/-- Fixture: `hello` cached; its tarball holds the single entry `../evil`. -/
def envEvil : Env :=
  ⟨[("r", helloRepo)], ["turl"],
    fun u => if u = "turl" then [⟨[.parentDir, .normal "evil"]⟩] else []⟩

/-- Fixture: `hello` cached; its tarball holds the single entry `/p/f`
(an absolute header path). -/
def envAbs : Env :=
  ⟨[("r", helloRepo)], ["turl"],
    fun u => if u = "turl" then [⟨[.rootDir, .normal "p", .normal "f"]⟩] else []⟩

/-- Fixture: `hello` cached with an empty tarball. -/
def envHello : Env := ⟨[("r", helloRepo)], ["turl"], fun _ => []⟩

/-- Fixture: a tarball target that declares the dependency `dep1`. -/
def depTarget : Target := ⟨hostPlatform, none, ["dep1"], .tarballPackage "turl" 1 "sha"⟩

/-- Fixture: `hello` with the dependency-carrying target, cached, empty
tarball. -/
def envDep : Env :=
  ⟨[("r", ⟨[⟨"hello", [⟨"1.0.0", none, [depTarget]⟩]⟩]⟩)], ["turl"], fun _ => []⟩

/-- Fixture: `hello` whose only target carries a Windows payload. -/
def envWin : Env :=
  ⟨[("r", ⟨[⟨"hello", [⟨"1.0.0", none,
    [⟨hostPlatform, none, [], .windowsExecutable "wurl" 1 "sha"⟩]⟩]⟩]⟩)], [], fun _ => []⟩

/-- Fixture: a database holding an installed record for `hello` 1.0.0 with
no files and no dependencies. -/
def dbHello : PackagesDb := ⟨[⟨0, kHello.canonicalString, "1.0.0"⟩], [], []⟩

/-- Fixture: descriptor of package `pa` with payload url `ua`. -/
def aDesc : Descriptor :=
  ⟨"pa", [⟨"1.0.0", none, [⟨hostPlatform, none, [], .tarballPackage "ua" 1 "ha"⟩]⟩]⟩

/-- Fixture: descriptor of package `pb` with payload url `ub`. -/
def bDesc : Descriptor :=
  ⟨"pb", [⟨"1.0.0", none, [⟨hostPlatform, none, [], .tarballPackage "ub" 1 "hb"⟩]⟩]⟩

/-- Fixture: a repository with the two packages `pa` and `pb`, both cached
as empty tarballs. -/
def envAB : Env := ⟨[("r", ⟨[aDesc, bDesc]⟩)], ["ua", "ub"], fun _ => []⟩

/-- Fixture: the key of `pa`. -/
def kA : PackageKey := ⟨"r", "pa", none⟩

/-- Fixture: the key of `pb`. -/
def kB : PackageKey := ⟨"r", "pb", none⟩

/-- Fixture: the package directory of `hello` under the prefix `/p`. -/
def pkgdirH : AbsPath := ["p", "pkg", "hello"]

/-- Fixture: a database whose `hello` record lists the files `a` and `b`,
in that stored order. -/
def dbTwoFiles : PackagesDb :=
  ⟨[⟨0, kHello.canonicalString, "1.0.0"⟩], [⟨0, "a"⟩, ⟨0, "b"⟩], []⟩

/-- Fixture: a file system holding the two recorded files of `hello`. -/
def fsTwo : FsState := ⟨[pkgdirH ++ ["a"], pkgdirH ++ ["b"]], [pkgdirH]⟩

/-- Fixture: a database whose single id-0 row belongs to a different url. -/
def dbOther : PackagesDb := ⟨[⟨0, "other", "0.1"⟩], [], []⟩

end Pahkat

namespace Pahkat

theorem mem_insertPath_self (l : List AbsPath) (p : AbsPath) : p ∈ insertPath l p := by
  unfold insertPath
  split
  case isTrue h => exact h
  case isFalse h => exact List.mem_cons_self p l

theorem mem_insertPath_of_mem (l : List AbsPath) (p q : AbsPath) (h : q ∈ l) :
    q ∈ insertPath l p := by
  unfold insertPath
  split
  case isTrue _ => exact h
  case isFalse _ => exact List.mem_cons_of_mem p h

theorem find_in_filter_ne (l : List (AbsPath × TomlFile)) (p : AbsPath) :
    (l.filter (fun e => e.1 != p)).find? (fun e => e.1 == p) = none := by
  rw [List.find?_eq_none]
  intro x hx
  have h2 := (List.mem_filter.mp hx).2
  simp only [bne_iff_ne] at h2
  simp [h2]

theorem find_filter_ne_eq (l : List (AbsPath × TomlFile)) (p q : AbsPath) (h : q ≠ p) :
    (l.filter (fun e => e.1 != p)).find? (fun e => e.1 == q) =
      l.find? (fun e => e.1 == q) := by
  induction l with
  | nil => rfl
  | cons x xs ih =>
    by_cases hx : x.1 = p
    · simp [List.filter_cons, List.find?_cons, hx, Ne.symm h, ih]
    · by_cases hxq : x.1 = q
      · simp [List.filter_cons, List.find?_cons, hx, hxq, h]
      · simp [List.filter_cons, List.find?_cons, hx, hxq, ih]

theorem lookup_write_same (fs : ServerFs) (p : AbsPath) (v : TomlFile) :
    lookupFile (writeIndexFile fs p v) p = some v := by
  unfold lookupFile writeIndexFile
  rw [List.find?_append, find_in_filter_ne]
  simp

theorem lookup_write_other (fs : ServerFs) (p q : AbsPath) (v : TomlFile) (h : q ≠ p) :
    lookupFile (writeIndexFile fs p v) q = lookupFile fs q := by
  unfold lookupFile writeIndexFile
  rw [List.find?_append, find_filter_ne_eq fs.files p q h]
  have h1 : ([(p, v)].find? (fun e => e.1 == q)) = none := by
    simp [Ne.symm h]
  rw [h1]
  cases fs.files.find? (fun e => e.1 == q) <;> rfl

/-- Claim C4: for every prefix store created or opened on a prefix path, the
embedded database file sits at the prefix joined with `packages.sqlite`. -/
theorem c4_package_db_path (p : AbsPath) :
    (PrefixPackageStore.create p).dbFile = p ++ ["packages.sqlite"] ∧
    (PrefixPackageStore.openStore p).dbFile = p ++ ["packages.sqlite"] :=
  ⟨rfl, rfl⟩

/-- Claim C7: when the resolved tarball payload's file is not in the
download cache, install fails with `PackageNotInCache` and the state (file
system and database alike) is unchanged. -/
theorem c7_not_in_cache (env : Env) (pfx : AbsPath) (k : PackageKey) (s : State)
    (t : Target) (rel : Release) (d : Descriptor) (u : String) (sz : Nat) (sha : String)
    (hres : resolvePayload k (tarballQuery k) env.repos = .ok (t, rel, d))
    (hp : t.payload = .tarballPackage u sz sha)
    (hc : u ∉ env.cache) :
    install env pfx k s = (.err .packageNotInCache, s) := by
  simp [install, hres, hp, hc]

/-- Witness for C7 at a concrete input: `hello` resolves to a tarball whose
url is absent from the cache. -/
theorem c7_witness : install envNoCache ["p"] kHello s0 = (.err .packageNotInCache, s0) :=
  c7_not_in_cache envNoCache ["p"] kHello s0 helloTarget helloRelease helloDesc
    "turl" 1 "sha" rfl rfl (by decide)

/-- Claim C10: init creates the repository directory and its `packages`
subdirectory, writes the repository descriptor with the request's base URL
and the pahkat agent to `index.toml`, and writes the empty
package-identifier list to `packages/index.toml`. -/
theorem c10_init (req : InitRequest) (fs : ServerFs) :
    req.path ∈ (init req fs).dirs ∧
    req.path ++ ["packages"] ∈ (init req fs).dirs ∧
    lookupFile (init req fs) (req.path ++ ["index.toml"]) =
      some (.repoIndex ⟨req.base_url,
        ⟨"pahkat", cargoPkgVersion, some "https://github.com/divvun/pahkat/"⟩, [], none⟩) ∧
    lookupFile (init req fs) (req.path ++ ["packages", "index.toml"]) =
      some (.packagesIndex []) := by
  have hne : req.path ++ ["index.toml"] ≠ req.path ++ ["packages", "index.toml"] := by
    simp
  refine ⟨?_, ?_, ?_, ?_⟩
  · exact mem_insertPath_of_mem _ _ _ (mem_insertPath_self _ _)
  · exact mem_insertPath_self _ _
  · unfold init
    rw [lookup_write_other _ _ _ _ hne, lookup_write_same]
    rfl
  · unfold init
    rw [lookup_write_same]

end Pahkat

namespace Pahkat

theorem unpackDest_extends (cs : List Component) :
    ∀ acc dst, unpackDest acc cs = some dst → ∃ rest, dst = acc ++ rest := by
  induction cs with
  | nil =>
    intro acc dst h
    injection h with h
    exact ⟨[], by simp [h]⟩
  | cons c cs ih =>
    intro acc dst h
    cases c with
    | rootDir => exact ih acc dst h
    | curDir => exact ih acc dst h
    | parentDir => exact absurd h (by simp [unpackDest])
    | normal s =>
      obtain ⟨rest, hr⟩ := ih (acc ++ [s]) dst h
      exact ⟨s :: rest, by simp [hr]⟩

theorem mem_insertPath (l : List AbsPath) (p q : AbsPath) (h : q ∈ insertPath l p) :
    q = p ∨ q ∈ l := by
  unfold insertPath at h
  by_cases hc : p ∈ l
  · rw [if_pos hc] at h
    exact Or.inr h
  · rw [if_neg hc] at h
    exact List.mem_cons.mp h

theorem processEntries_files (pfx pkgdir : AbsPath) (es : List TarEntry) :
    ∀ fs p, p ∈ (processEntries pfx pkgdir es fs).1.files →
      p ∈ fs.files ∨ ∃ rest, p = pkgdir ++ rest := by
  induction es with
  | nil =>
    intro fs p hp
    simp only [processEntries] at hp
    exact Or.inl hp
  | cons e es ih =>
    intro fs p hp
    cases h1 : unpackDest pkgdir e.path with
    | none =>
      simp only [processEntries, h1] at hp
      exact ih fs p hp
    | some dst =>
      simp only [processEntries, h1] at hp
      have hmem2 : ∀ q, q ∈ (if dst = pkgdir then fs else addFile fs dst).files →
          q ∈ fs.files ∨ ∃ rest, q = pkgdir ++ rest := by
        intro q hq
        by_cases hd : dst = pkgdir
        · rw [if_pos hd] at hq
          exact Or.inl hq
        · rw [if_neg hd] at hq
          simp only [addFile] at hq
          rcases mem_insertPath _ _ _ hq with hqd | hqf
          · obtain ⟨rest, hr⟩ := unpackDest_extends e.path pkgdir dst h1
            exact Or.inr ⟨rest, by rw [hqd, hr]⟩
          · exact Or.inl hqf
      cases h2 : stripRoot pfx e.path with
      | none =>
        simp only [h2] at hp
        exact hmem2 p hp
      | some rel =>
        simp only [h2] at hp
        cases h3 : processEntries pfx pkgdir es (if dst = pkgdir then fs else addFile fs dst) with
        | mk fs3 names =>
          simp only [h3] at hp
          have hp3 : p ∈ fs3.files := by cases names <;> exact hp
          rcases ih _ p (by rw [h3]; exact hp3) with h | h
          · exact hmem2 p h
          · exact Or.inr h

/-- Claim C1 (amended): install never fails with `UnsafePath` — a tar entry
whose path escapes the package root is silently skipped by `unpack_in` —
and every file install writes lies under the package root
`<prefix>/pkg/<package-id>/`. -/
theorem c1_escape_skipped (env : Env) (pfx : AbsPath) (k : PackageKey) (s : State)
    (t : Target) (rel : Release) (d : Descriptor)
    (hres : resolvePayload k (tarballQuery k) env.repos = .ok (t, rel, d)) :
    (install env pfx k s).1 ≠ .err .unsafePath ∧
    ∀ p, p ∈ (install env pfx k s).2.fs.files → p ∉ s.fs.files →
      ∃ rest, p = package_dir pfx d.id ++ rest := by
  cases hp : t.payload with
  | tarballPackage u sz sha =>
    by_cases hc : u ∈ env.cache
    · cases hpe : processEntries pfx (package_dir pfx d.id) (env.archives u)
          (createDirAll s.fs (package_dir pfx d.id)) with
      | mk fs2 names =>
        have hsub : ∀ p, p ∈ fs2.files → p ∉ s.fs.files →
            ∃ rest, p = package_dir pfx d.id ++ rest := by
          intro p hpf hnf
          rcases processEntries_files pfx (package_dir pfx d.id) (env.archives u)
            (createDirAll s.fs (package_dir pfx d.id)) p (by rw [hpe]; exact hpf) with h | h
          · exact absurd h hnf
          · exact h
        cases names with
        | none =>
          have hinst : install env pfx k s = (.panicked, ⟨fs2, s.db⟩) := by
            simp [install, hres, hp, hc, hpe]
          rw [hinst]
          exact ⟨by simp, hsub⟩
        | some files =>
          have hinst : install env pfx k s = (.ok .upToDate,
              ⟨fs2, replace_pkg s.db ⟨0, k.canonicalString, rel.version, files, t.dependencies⟩⟩) := by
            simp [install, hres, hp, hc, hpe]
          rw [hinst]
          exact ⟨by simp, hsub⟩
    · have hinst : install env pfx k s = (.err .packageNotInCache, s) := by
        simp [install, hres, hp, hc]
      rw [hinst]
      exact ⟨by simp, fun p hpf hnf => absurd hpf hnf⟩
  | windowsExecutable u sz sha =>
    have hinst : install env pfx k s = (.err .wrongPayloadType, s) := by
      simp [install, hres, hp]
    rw [hinst]
    exact ⟨by simp, fun p hpf hnf => absurd hpf hnf⟩
  | macOSPackage u sz sha =>
    have hinst : install env pfx k s = (.err .wrongPayloadType, s) := by
      simp [install, hres, hp]
    rw [hinst]
    exact ⟨by simp, fun p hpf hnf => absurd hpf hnf⟩

/-- Counterexample to claim C1 as stated: the cached tarball of `hello`
holds the single escaping entry `../evil`, yet install succeeds with
`UpToDate` (it does not fail with `UnsafePath`) and writes no file at
all. -/
theorem c1_counterexample :
    (install envEvil ["p"] kHello s0).1 = .ok .upToDate ∧
    (install envEvil ["p"] kHello s0).2.fs.files = [] := by
  exact ⟨by decide, by decide⟩

/-- Witness for C1 (amended) at a concrete input: the file written for the
absolute-path entry `/p/f` lands under the package root. -/
theorem c1_witness :
    ∃ rest, ["p", "pkg", "hello", "p", "f"] = package_dir ["p"] "hello" ++ rest :=
  (c1_escape_skipped envAbs ["p"] kHello s0 helloTarget helloRelease helloDesc rfl).2
    ["p", "pkg", "hello", "p", "f"] (by decide) (by decide)

end Pahkat

namespace Pahkat

theorem canonicalizeUnder_some (fs : FsState) (base : AbsPath) (f : String) (p : AbsPath)
    (h : canonicalizeUnder fs base f = some p) :
    p = pathResolve base f ∧ fs.existsPath p := by
  unfold canonicalizeUnder at h
  by_cases he : fs.existsPath (pathResolve base f)
  · rw [if_pos he] at h
    injection h with h
    exact ⟨h.symm, h ▸ he⟩
  · rw [if_neg he] at h
    exact absurd h (by simp)

theorem removePass_trace (pkgdir : AbsPath) (files : List String) :
    ∀ fs, (removePass pkgdir files fs).2.Sublist (files.map (pathResolve pkgdir)) ∧
      ∀ p, p ∈ (removePass pkgdir files fs).2 → p ∈ fs.files ∧ p ∉ fs.dirs := by
  induction files with
  | nil =>
    intro fs
    refine ⟨?_, ?_⟩
    · simp [removePass]
    · simp [removePass]
  | cons f rest ih =>
    intro fs
    cases h1 : canonicalizeUnder fs pkgdir f with
    | none =>
      have hr : removePass pkgdir (f :: rest) fs = removePass pkgdir rest fs := by
        simp only [removePass, h1]
      rw [hr]
      exact ⟨List.Sublist.cons _ (ih fs).1, (ih fs).2⟩
    | some p =>
      by_cases h2 : p ∈ fs.dirs
      · have hr : removePass pkgdir (f :: rest) fs = removePass pkgdir rest fs := by
          simp only [removePass, h1, if_pos h2]
        rw [hr]
        exact ⟨List.Sublist.cons _ (ih fs).1, (ih fs).2⟩
      · have hr : removePass pkgdir (f :: rest) fs =
            ((removePass pkgdir rest { fs with files := fs.files.erase p }).1,
             p :: (removePass pkgdir rest { fs with files := fs.files.erase p }).2) := by
          simp only [removePass, h1, if_neg h2]
        rw [hr]
        obtain ⟨hpeq, hpex⟩ := canonicalizeUnder_some fs pkgdir f p h1
        refine ⟨?_, ?_⟩
        · rw [List.map_cons, ← hpeq]
          exact List.Sublist.cons₂ _ (ih _).1
        · intro q hq
          rcases List.mem_cons.mp hq with hqp | hqtr
          · subst hqp
            have hpf : q ∈ fs.files := by
              rcases hpex with h | h
              · exact h
              · exact absurd h h2
            exact ⟨hpf, h2⟩
          · have hstep := (ih _).2 q hqtr
            exact ⟨List.mem_of_mem_erase hstep.1, hstep.2⟩

/-- Claim C2 (amended): uninstall visits the recorded file paths in the
order install stored them (the stored order, not its reverse), resolving
each under the package directory; the removal trace is an order-preserving
subsequence of the stored list, and every removed path was an existing
regular (non-directory) file. -/
theorem c2_uninstall_order (pfx : AbsPath) (k : PackageKey) (s : State) (r : PackageDbRecord)
    (hrec : find_by_id s.db k = .found r) :
    (uninstall pfx k s).2.2.Sublist (r.files.map (pathResolve (package_dir pfx k.id))) ∧
    ∀ p, p ∈ (uninstall pfx k s).2.2 → p ∈ s.fs.files ∧ p ∉ s.fs.dirs := by
  have hu : (uninstall pfx k s).2.2 = (removePass (package_dir pfx k.id) r.files s.fs).2 := by
    simp only [uninstall, hrec]
  rw [hu]
  exact removePass_trace (package_dir pfx k.id) r.files s.fs

/-- Counterexample to claim C2 as stated: the `hello` record stores files
`a` then `b`, both present on disk; uninstall's removal trace is exactly
the stored order and differs from the reversed order the claim requires. -/
theorem c2_counterexample :
    (uninstall ["p"] kHello ⟨fsTwo, dbTwoFiles⟩).2.2 =
      (dbFiles dbTwoFiles kHello.canonicalString).map (pathResolve pkgdirH) ∧
    (uninstall ["p"] kHello ⟨fsTwo, dbTwoFiles⟩).2.2 ≠
      ((dbFiles dbTwoFiles kHello.canonicalString).map (pathResolve pkgdirH)).reverse := by
  exact ⟨by decide, by decide⟩

/-- Witness for C2 (amended) at a concrete input: the removal trace of the
two-file record is a subsequence of the stored-order resolved paths. -/
theorem c2_witness :
    (uninstall ["p"] kHello ⟨fsTwo, dbTwoFiles⟩).2.2.Sublist
      ((["a", "b"] : List String).map (pathResolve (package_dir ["p"] "hello"))) :=
  (c2_uninstall_order ["p"] kHello ⟨fsTwo, dbTwoFiles⟩
    ⟨0, kHello.canonicalString, "1.0.0", ["a", "b"], []⟩ (by decide)).1

/-- Claim C6: once the record is found, uninstall succeeds for every
file-system state — in particular when some or all recorded paths are
missing, they are skipped silently — returning `NotInstalled` and deleting
the database record (no packages row or child row keyed by the record's
id 0 remains). -/
theorem c6_missing_files_skipped (pfx : AbsPath) (k : PackageKey) (db : PackagesDb)
    (r : PackageDbRecord) (hrec : find_by_id db k = .found r) :
    ∀ fs : FsState,
      (uninstall pfx k ⟨fs, db⟩).1 = .ok .notInstalled ∧
      (∀ row ∈ (uninstall pfx k ⟨fs, db⟩).2.1.db.packages, row.id ≠ 0) ∧
      (∀ row ∈ (uninstall pfx k ⟨fs, db⟩).2.1.db.packages_files, row.package_id ≠ 0) ∧
      (∀ row ∈ (uninstall pfx k ⟨fs, db⟩).2.1.db.packages_dependencies, row.package_id ≠ 0) := by
  intro fs
  have hid : r.id = 0 := by
    cases hv : dbVersion db k.canonicalString with
    | none =>
      simp only [find_by_id, hv] at hrec
      exact DbLookup.noConfusion hrec
    | some v =>
      cases hd : dbDeps db k.canonicalString with
      | none =>
        simp only [find_by_id, hv, hd] at hrec
        exact DbLookup.noConfusion hrec
      | some ds =>
        simp only [find_by_id, hv, hd] at hrec
        injection hrec with h
        rw [← h]
  have hu1 : (uninstall pfx k ⟨fs, db⟩).1 = .ok .notInstalled := by
    simp only [uninstall, hrec]
  have hu2 : (uninstall pfx k ⟨fs, db⟩).2.1.db = remove_pkg db r.id := by
    simp only [uninstall, hrec]
  refine ⟨hu1, ?_, ?_, ?_⟩
  · rw [hu2, hid]
    intro row hrow
    have hmf := (List.mem_filter.mp hrow).2
    simpa using hmf
  · rw [hu2, hid]
    intro row hrow
    have hmf := (List.mem_filter.mp hrow).2
    simpa using hmf
  · rw [hu2, hid]
    intro row hrow
    have hmf := (List.mem_filter.mp hrow).2
    simpa using hmf

/-- Witness for C6 at a concrete input: the two recorded files are both
absent (the file system is empty), yet uninstall returns `NotInstalled`. -/
theorem c6_witness :
    (uninstall ["p"] kHello ⟨⟨[], []⟩, dbTwoFiles⟩).1 = .ok .notInstalled :=
  (c6_missing_files_skipped ["p"] kHello dbTwoFiles
    ⟨0, kHello.canonicalString, "1.0.0", ["a", "b"], []⟩ (by decide) ⟨[], []⟩).1

theorem install_ok_db (env : Env) (pfx : AbsPath) (k : PackageKey) (s : State)
    (st : PackageStatus) (s2 : State)
    (hok : install env pfx k s = (.ok st, s2)) :
    ∃ t rel d files,
      resolvePayload k (tarballQuery k) env.repos = Except.ok ((t : Target), (rel : Release), (d : Descriptor)) ∧
      (∃ u sz sha, t.payload = .tarballPackage u sz sha) ∧
      st = .upToDate ∧
      s2.db = replace_pkg s.db ⟨0, k.canonicalString, rel.version, files, t.dependencies⟩ := by
  cases hres : resolvePayload k (tarballQuery k) env.repos with
  | error e =>
    rw [install, hres] at hok
    exact absurd hok (by simp)
  | ok trd =>
    obtain ⟨t, rel, d⟩ := trd
    cases hp : t.payload with
    | tarballPackage u sz sha =>
      by_cases hc : u ∈ env.cache
      · cases hpe : processEntries pfx (package_dir pfx d.id) (env.archives u)
            (createDirAll s.fs (package_dir pfx d.id)) with
        | mk fs2 names =>
          cases names with
          | none =>
            have : install env pfx k s = (.panicked, ⟨fs2, s.db⟩) := by
              simp [install, hres, hp, hc, hpe]
            rw [this] at hok
            exact absurd hok (by simp)
          | some files =>
            have : install env pfx k s = (.ok .upToDate,
                ⟨fs2, replace_pkg s.db ⟨0, k.canonicalString, rel.version, files, t.dependencies⟩⟩) := by
              simp [install, hres, hp, hc, hpe]
            rw [this] at hok
            rw [Prod.mk.injEq] at hok
            obtain ⟨h1, h2⟩ := hok
            injection h1 with h1
            exact ⟨t, rel, d, files, rfl, ⟨u, sz, sha, hp⟩, h1.symm, by rw [← h2]⟩
      · have : install env pfx k s = (.err .packageNotInCache, s) := by
          simp [install, hres, hp, hc]
        rw [this] at hok
        exact absurd hok (by simp)
    | windowsExecutable u sz sha =>
      have : install env pfx k s = (.err .wrongPayloadType, s) := by
        simp [install, hres, hp]
      rw [this] at hok
      exact absurd hok (by simp)
    | macOSPackage u sz sha =>
      have : install env pfx k s = (.err .wrongPayloadType, s) := by
        simp [install, hres, hp]
      rw [this] at hok
      exact absurd hok (by simp)

/-- Claim C8: every record install saves carries row id 0, so the REPLACE
in `replace_pkg` conflicts on the primary key 0: a successful install
removes the pre-existing id-0 packages row even when that row's url belongs
to a different, previously installed package, and inserts the new package's
row again at id 0. -/
theorem c8_replace_keyed_on_zero (env : Env) (pfx : AbsPath) (k : PackageKey) (s : State)
    (st : PackageStatus) (s2 : State) (row : PackagesRow)
    (hok : install env pfx k s = (.ok st, s2))
    (_hrow : row ∈ s.db.packages) (hid : row.id = 0)
    (hurl : row.url ≠ k.canonicalString) :
    row ∉ s2.db.packages ∧
    ∃ v, (⟨0, k.canonicalString, v⟩ : PackagesRow) ∈ s2.db.packages := by
  obtain ⟨t, rel, d, files, hres, _hpay, hst, hdb⟩ := install_ok_db env pfx k s st s2 hok
  rw [hdb]
  constructor
  · intro hmem
    simp only [replace_pkg, replaceInto] at hmem
    rcases List.mem_append.mp hmem with hm | hm
    · have hmf := (List.mem_filter.mp hm).2
      simp [hid] at hmf
    · have hrr : row = ⟨0, k.canonicalString, rel.version⟩ := by simpa using hm
      rw [hrr] at hurl
      exact hurl rfl
  · refine ⟨rel.version, ?_⟩
    simp only [replace_pkg, replaceInto]
    exact List.mem_append.mpr (Or.inr (by simp))

/-- Witness for C8 at a concrete input: installing `hello` over a database
whose single id-0 row has url `other` deletes that row and inserts the
`hello` row at id 0. -/
theorem c8_witness :
    (⟨0, "other", "0.1"⟩ : PackagesRow) ∉
      (install envHello ["p"] kHello ⟨⟨[], []⟩, dbOther⟩).2.db.packages ∧
    ∃ v, (⟨0, kHello.canonicalString, v⟩ : PackagesRow) ∈
      (install envHello ["p"] kHello ⟨⟨[], []⟩, dbOther⟩).2.db.packages :=
  c8_replace_keyed_on_zero envHello ["p"] kHello ⟨⟨[], []⟩, dbOther⟩ .upToDate
    (install envHello ["p"] kHello ⟨⟨[], []⟩, dbOther⟩).2 ⟨0, "other", "0.1"⟩
    (by decide) (by decide) rfl (by decide)

/-- Claim C3 is contradicted by the code at this input: after installing
`pa` (whose row is then present) a subsequent install of `pb` succeeds but
deletes `pa`'s packages row — the REPLACE conflicts on the constant row
id 0, not only on the url column — leaving only `pb`'s row. -/
theorem c3_second_install_deletes_first :
    dbVersion (install envAB ["p"] kA s0).2.db kA.canonicalString = some "1.0.0" ∧
    (install envAB ["p"] kB (install envAB ["p"] kA s0).2).1 = .ok .upToDate ∧
    dbVersion (install envAB ["p"] kB (install envAB ["p"] kA s0).2).2.db
      kA.canonicalString = none ∧
    dbVersion (install envAB ["p"] kB (install envAB ["p"] kA s0).2).2.db
      kB.canonicalString = some "1.0.0" := by
  exact ⟨by decide, by decide, by decide, by decide⟩

end Pahkat

namespace Pahkat

theorem find_row_replace (db : PackagesDb) (i : Int) (url v : String)
    (files deps : List String) :
    (replace_pkg db ⟨i, url, v, files, deps⟩).packages.find? (fun r => r.url == url) =
      some ⟨i, url, v⟩ := by
  simp only [replace_pkg, replaceInto]
  rw [List.find?_append]
  have h1 : (db.packages.filter (fun q => q.id != i && q.url != url)).find?
      (fun r => r.url == url) = none := by
    rw [List.find?_eq_none]
    intro x hx
    have hmf := (List.mem_filter.mp hx).2
    rw [Bool.and_eq_true] at hmf
    have := bne_iff_ne.mp hmf.2
    simp [this]
  rw [h1]
  simp

theorem dbVersion_replace (db : PackagesDb) (i : Int) (url v : String)
    (files deps : List String) :
    dbVersion (replace_pkg db ⟨i, url, v, files, deps⟩) url = some v := by
  unfold dbVersion
  rw [find_row_replace]
  rfl

theorem dbFiles_replace (db : PackagesDb) (url v : String) (files : List String)
    (deps : List String) :
    dbFiles (replace_pkg db ⟨0, url, v, files, deps⟩) url = files := by
  unfold dbFiles
  rw [find_row_replace]
  show ((replace_pkg db ⟨0, url, v, files, deps⟩).packages_files.filter
    (fun r => r.package_id == (0 : Int))).map (fun r => r.file_path) = files
  simp only [replace_pkg]
  rw [List.filter_append]
  have h1 : (db.packages_files.filter (fun r => r.package_id != (0 : Int))).filter
      (fun r => r.package_id == (0 : Int)) = [] := by
    rw [List.filter_eq_nil_iff]
    intro a ha
    have hmf := (List.mem_filter.mp ha).2
    have := bne_iff_ne.mp hmf
    simp [this]
  rw [h1]
  rw [List.filter_map]
  have h2 : (files.filter ((fun (r : FilesRow) => r.package_id == (0 : Int)) ∘
      (fun f => (⟨0, f⟩ : FilesRow)))) = files := by
    rw [List.filter_eq_self]
    intro a _
    rfl
  rw [h2]
  rw [List.nil_append, List.map_map]
  exact List.map_id'' (fun x => rfl) files

theorem dbDeps_replace_nil (db : PackagesDb) (url v : String) (files : List String) :
    dbDeps (replace_pkg db ⟨0, url, v, files, []⟩) url = some [] := by
  unfold dbDeps
  rw [find_row_replace]
  show allSome (((replace_pkg db ⟨0, url, v, files, []⟩).packages_dependencies.filter
    (fun r => r.package_id == (0 : Int))).map (fun r => r.dependency_id)) = some []
  simp only [replace_pkg]
  rw [List.map_nil, List.append_nil]
  have h1 : (db.packages_dependencies.filter (fun r => r.package_id != (0 : Int))).filter
      (fun r => r.package_id == (0 : Int)) = [] := by
    rw [List.filter_eq_nil_iff]
    intro a ha
    have hmf := (List.mem_filter.mp ha).2
    have := bne_iff_ne.mp hmf
    simp [this]
  rw [h1]
  rfl

theorem find_by_id_replace_nodeps (db : PackagesDb) (k : PackageKey) (v : String)
    (files : List String) :
    find_by_id (replace_pkg db ⟨0, k.canonicalString, v, files, []⟩) k =
      .found ⟨0, k.canonicalString, v, files, []⟩ := by
  simp only [find_by_id, dbVersion_replace, dbDeps_replace_nil, dbFiles_replace]

theorem find_by_id_found_meta (db : PackagesDb) (k : PackageKey) (r : PackageDbRecord)
    (hrec : find_by_id db k = .found r) : r.id = 0 ∧ r.url = k.canonicalString := by
  cases hv : dbVersion db k.canonicalString with
  | none =>
    simp only [find_by_id, hv] at hrec
    exact DbLookup.noConfusion hrec
  | some v =>
    cases hd : dbDeps db k.canonicalString with
    | none =>
      simp only [find_by_id, hv, hd] at hrec
      exact DbLookup.noConfusion hrec
    | some ds =>
      simp only [find_by_id, hv, hd] at hrec
      injection hrec with hr
      rw [← hr]
      exact ⟨rfl, rfl⟩

/-- Claim C5 (amended): for a key with a resolvable tarball payload whose
resolved target carries no dependencies (a target with dependencies stores
NULL dependency rows through the url-keyed subselect, and the later status
lookup fails reading them): a successful install returns `UpToDate` and a
subsequent status returns `UpToDate`; and on a database all of whose rows
carry id 0 (as install writes them), a successful uninstall returns
`NotInstalled` and a subsequent status returns `NotInstalled`. -/
theorem c5_roundtrip (env : Env) (pfx : AbsPath) (k : PackageKey)
    (t : Target) (rel : Release) (d : Descriptor)
    (hres : resolvePayload k (tarballQuery k) env.repos = .ok (t, rel, d))
    (hdep : t.dependencies = []) :
    (∀ s st s2, install env pfx k s = (.ok st, s2) →
      st = .upToDate ∧ status env k s2 = .ok .upToDate) ∧
    (∀ s u s3 tr, (∀ row ∈ s.db.packages, row.id = 0) →
      uninstall pfx k s = (.ok u, s3, tr) →
      u = .notInstalled ∧ status env k s3 = .ok .notInstalled) := by
  constructor
  · intro s st s2 hok
    obtain ⟨t2, rel2, d2, files, hres2, hpay, hst, hdb⟩ := install_ok_db env pfx k s st s2 hok
    rw [hres] at hres2
    injection hres2 with hres2
    rw [Prod.mk.injEq] at hres2
    obtain ⟨ht, hrd⟩ := hres2
    rw [Prod.mk.injEq] at hrd
    obtain ⟨hrel, hd⟩ := hrd
    subst ht
    subst hrel
    rw [hdep] at hdb
    obtain ⟨u, sz, sha, hp⟩ := hpay
    have hfind : find_by_id s2.db k = .found ⟨0, k.canonicalString, rel.version, files, []⟩ := by
      rw [hdb]
      exact find_by_id_replace_nodeps s.db k rel.version files
    refine ⟨hst, ?_⟩
    simp [status, hfind, hres, hp, cmpVersions]
  · intro s u s3 tr hwf hun
    cases hrec : find_by_id s.db k with
    | panicked =>
      have h : uninstall pfx k s = (.panicked, s, []) := by
        simp only [uninstall, hrec]
      rw [h] at hun
      exact absurd hun (by simp)
    | notFound =>
      have h : uninstall pfx k s = (.err .notInstalled, s, []) := by
        simp only [uninstall, hrec]
      rw [h] at hun
      exact absurd hun (by simp)
    | found r =>
      have h : uninstall pfx k s = (.ok .notInstalled,
          ⟨⟨dirPass (package_dir pfx k.id) r.files
              (removePass (package_dir pfx k.id) r.files s.fs).1,
            remove_pkg s.db r.id⟩,
           (removePass (package_dir pfx k.id) r.files s.fs).2⟩) := by
        simp only [uninstall, hrec]
      rw [h] at hun
      rw [Prod.mk.injEq] at hun
      obtain ⟨h1, h23⟩ := hun
      injection h1 with h1
      rw [Prod.mk.injEq] at h23
      obtain ⟨h2, _⟩ := h23
      have hid0 : r.id = 0 := (find_by_id_found_meta s.db k r hrec).1
      have hdb3 : s3.db = remove_pkg s.db 0 := by
        rw [← h2, hid0]
      have hempty : (remove_pkg s.db 0).packages = [] := by
        unfold remove_pkg
        rw [List.filter_eq_nil_iff]
        intro a ha
        simp [hwf a ha]
      have hver : dbVersion s3.db k.canonicalString = none := by
        rw [hdb3]
        unfold dbVersion
        rw [hempty]
        rfl
      have hfind : find_by_id s3.db k = .notFound := by
        simp only [find_by_id, hver]
      exact ⟨h1.symm, by simp only [status, hfind]⟩

/-- Counterexample to claim C5 as stated: `hello`'s resolved target declares
the dependency `dep1`; install succeeds and returns `UpToDate`, but the
dependency row was stored as NULL by the url-keyed subselect, so the
subsequent status panics on the lookup instead of returning `UpToDate`. -/
theorem c5_counterexample :
    (install envDep ["p"] kHello s0).1 = .ok .upToDate ∧
    status envDep kHello (install envDep ["p"] kHello s0).2 = .panicked := by
  exact ⟨by decide, by decide⟩

/-- Witness for C5 (amended) at a concrete input: install then status gives
`UpToDate`; uninstall then status gives `NotInstalled`. -/
theorem c5_witness :
    status envHello kHello (install envHello ["p"] kHello s0).2 = .ok .upToDate ∧
    status envHello kHello
      (uninstall ["p"] kHello (install envHello ["p"] kHello s0).2).2.1 = .ok .notInstalled := by
  refine ⟨?_, ?_⟩
  · exact ((c5_roundtrip envHello ["p"] kHello helloTarget helloRelease helloDesc rfl rfl).1
      s0 .upToDate (install envHello ["p"] kHello s0).2 (by decide)).2
  · exact ((c5_roundtrip envHello ["p"] kHello helloTarget helloRelease helloDesc rfl rfl).2
      (install envHello ["p"] kHello s0).2 .notInstalled
      (uninstall ["p"] kHello (install envHello ["p"] kHello s0).2).2.1
      (uninstall ["p"] kHello (install envHello ["p"] kHello s0).2).2.2
      (by decide) (by decide)).2

/-- Claim C9 (amended): with an installed record, when resolution under the
tarball-filtered query fails, status returns the propagated `Payload` error
— in particular `NoMatchingPayload` when the package's resolvable release
carries no tarball payload — and never `WrongPayloadType`. -/
theorem c9_payload_error_propagated (env : Env) (k : PackageKey) (s : State)
    (r : PackageDbRecord) (e : PayloadError)
    (hrec : find_by_id s.db k = .found r)
    (hres : resolvePayload k (tarballQuery k) env.repos = .error e) :
    status env k s = .err (.payload e) ∧ status env k s ≠ .err .wrongPayloadType := by
  have h : status env k s = .err (.payload e) := by
    simp only [status, hrec, hres]
  refine ⟨h, ?_⟩
  rw [h]
  simp

/-- Counterexample to claim C9 as stated: `hello` is recorded as installed
and the release its key resolves to (without the payload filter) carries
only a Windows payload; status does not return `WrongPayloadType` — the
tarball-filtered resolution fails first, and status returns the propagated
`Payload NoMatchingPayload` error. -/
theorem c9_counterexample :
    resolvePayload kHello (queryFrom kHello) envWin.repos =
      .ok (⟨hostPlatform, none, [], .windowsExecutable "wurl" 1 "sha"⟩,
        ⟨"1.0.0", none, [⟨hostPlatform, none, [], .windowsExecutable "wurl" 1 "sha"⟩]⟩,
        ⟨"hello", [⟨"1.0.0", none,
          [⟨hostPlatform, none, [], .windowsExecutable "wurl" 1 "sha"⟩]⟩]⟩) ∧
    status envWin kHello ⟨⟨[], []⟩, dbHello⟩ = .err (.payload .noMatchingPayload) ∧
    status envWin kHello ⟨⟨[], []⟩, dbHello⟩ ≠ .err .wrongPayloadType := by
  exact ⟨rfl, by decide, by decide⟩

/-- Witness for C9 (amended) at a concrete input. -/
theorem c9_witness :
    status envWin kHello ⟨⟨[], []⟩, dbHello⟩ = .err (.payload .noMatchingPayload) :=
  (c9_payload_error_propagated envWin kHello ⟨⟨[], []⟩, dbHello⟩
    ⟨0, kHello.canonicalString, "1.0.0", [], []⟩ .noMatchingPayload
    (by decide) rfl).1

end Pahkat
